import Mathlib

/-!
Verification of the dBASE (.dbf) record-decoding pipeline of `src/reading.rs`.

The byte source is modelled as a `List Nat` of bytes (values 0..255), consumed
front-to-first: a sequential forward-only read drops a prefix.  Stateful Rust
code becomes explicit state passing; fallible code returns `Except`; the one
`panic!` in the source is a distinguished outcome of construction.

`Header`, `RecordFieldInfo`, `FieldValue` and `Error` live in repository
modules (`header.rs`, `record.rs`) that are not under `src/`; they are
modelled from the spec (each carries a doc comment saying so).  Everything
in the `Reader` itself is translated from `src/reading.rs`.
-/

namespace Dbase

/-- Modelled from the spec: the error taxonomy of §7 (`Error` is defined in a
repository module not under `src/`): `IoError`, `MalformedHeader`,
`MalformedFieldDescriptor`, `InvalidFieldData`, `UnexpectedTerminator`. -/
inductive Error where
  | IoError
  | MalformedHeader
  | MalformedFieldDescriptor
  | InvalidFieldData
  | UnexpectedTerminator
deriving DecidableEq, Repr

/-- Modelled from the spec: the closed set of column type tags (§9,
"field-type polymorphism"; character, numeric, date, logical, memo). -/
inductive FieldType where
  | Character
  | Numeric
  | Date
  | Logical
  | Memo
deriving DecidableEq, Repr

/-- Modelled from the spec: the header data (§3): record count and the byte
offset to the first record.  `header.rs` is not under `src/`. -/
structure Header where
  num_records : Nat
  offset_to_first_record : Nat
deriving DecidableEq, Repr

/-- The fixed size in bytes of the on-disk header (the dBASE format's value). -/
def Header.SIZE : Nat := 32

/-- Modelled from the spec: `Header::read_from` (§4.1), `header.rs` not being
under `src/`.  Reads a fixed number of bytes from the front of the source,
failing with an I/O error on a short read; the record count is a 32-bit
little-endian quantity at byte 4 and the offset to the first record a 16-bit
little-endian quantity at byte 8 of the dBASE header.  Per §4.1 the decoder
must not produce a header whose `offset_to_first_record` is smaller than the
fixed header size, so such a header fails as malformed.  On success the
source is advanced past the header. -/
def Header.read_from (src : List Nat) : Except Error (Header × List Nat) :=
  if src.length < Header.SIZE then
    .error .IoError
  else
    let bytes := src.take Header.SIZE
    let num_records :=
      bytes.getD 4 0 + 256 * bytes.getD 5 0 + 65536 * bytes.getD 6 0 +
        16777216 * bytes.getD 7 0
    let offset := bytes.getD 8 0 + 256 * bytes.getD 9 0
    if offset < Header.SIZE then
      .error .MalformedHeader
    else
      .ok ({ num_records := num_records, offset_to_first_record := offset },
        src.drop Header.SIZE)

/-- Modelled from the spec: a field descriptor (§3): a name, a type tag and a
declared byte length governing how many bytes the field value decoder
consumes.  `record.rs` is not under `src/`. -/
structure RecordFieldInfo where
  name : String
  field_type : FieldType
  record_length : Nat
deriving DecidableEq, Repr

/-- The fixed size in bytes of one on-disk field descriptor (the dBASE
format's value). -/
def RecordFieldInfo.SIZE : Nat := 32

/-- The synthetic deletion-flag pseudo-field: fixed name "DeletionFlag",
1 byte wide, character-like (§3; `RecordFieldInfo::new_deletion_flag` in
`record.rs`, called at `src/reading.rs:43`). -/
def RecordFieldInfo.new_deletion_flag : RecordFieldInfo :=
  { name := "DeletionFlag", field_type := .Character, record_length := 1 }

/-- Modelled from the spec: mapping an on-disk type-tag byte to the closed
set of column types; an unknown tag is a malformed descriptor. -/
def FieldType.from_byte (b : Nat) : Option FieldType :=
  if b = 67 then some .Character
  else if b = 78 then some .Numeric
  else if b = 68 then some .Date
  else if b = 76 then some .Logical
  else if b = 77 then some .Memo
  else none

/-- Modelled from the spec: the field name occupies the first 11 bytes of a
descriptor, NUL-terminated ASCII. -/
def fieldNameOfBytes (bytes : List Nat) : String :=
  String.mk (((bytes.take 11).takeWhile (fun b => b ≠ 0)).map Char.ofNat)

/-- Modelled from the spec: `RecordFieldInfo::read_from` (§4.2), `record.rs`
not being under `src/`.  Consumes one fixed-size descriptor from the front of
the source: I/O error on a short read, malformed-descriptor error on an
unknown type tag (byte 11); the declared byte length is byte 16 of the dBASE
descriptor layout.  On success the source is advanced past the descriptor. -/
def RecordFieldInfo.read_from (src : List Nat) :
    Except Error (RecordFieldInfo × List Nat) :=
  if src.length < RecordFieldInfo.SIZE then
    .error .IoError
  else
    let bytes := src.take RecordFieldInfo.SIZE
    match FieldType.from_byte (bytes.getD 11 0) with
    | none => .error .MalformedFieldDescriptor
    | some t =>
      .ok ({ name := fieldNameOfBytes bytes, field_type := t,
             record_length := bytes.getD 16 0 },
        src.drop RecordFieldInfo.SIZE)

/-- Modelled from the spec: a field value is a tagged union over the
supported column types (§3); the per-type binary layouts are an external
collaborator, so each variant keeps the raw bytes it consumed. -/
inductive FieldValue where
  | Character (bytes : List Nat)
  | Numeric (bytes : List Nat)
  | Date (bytes : List Nat)
  | Logical (bytes : List Nat)
  | Memo (bytes : List Nat)
deriving DecidableEq, Repr

/-- Modelled from the spec: `FieldValue::read_from` (§6), the external field
value decoder.  It consumes exactly `descriptor.record_length` bytes from the
source, dispatching on the descriptor's type tag; a short source is an I/O
error (the failed read leaves the source at an unspecified position, modelled
as fully consumed). -/
def FieldValue.read_from (src : List Nat) (info : RecordFieldInfo) :
    Except Error FieldValue × List Nat :=
  if src.length < info.record_length then
    (.error .IoError, [])
  else
    let bytes := src.take info.record_length
    let v : FieldValue :=
      match info.field_type with
      | .Character => .Character bytes
      | .Numeric => .Numeric bytes
      | .Date => .Date bytes
      | .Logical => .Logical bytes
      | .Memo => .Memo bytes
    (.ok v, src.drop info.record_length)

/-- `src/reading.rs:15`: a record is a mapping from field name to decoded
value, modelled as an association list with unique keys. -/
def Record := List (String × FieldValue)
deriving DecidableEq

/-- `HashMap::insert` semantics: the new binding replaces any existing
binding of the same key (last-write-wins). -/
def Record.insert (rec : Record) (k : String) (v : FieldValue) : Record :=
  (List.filter (fun p => p.1 ≠ k) rec) ++ [(k, v)]

/-- Whether the mapping contains the given key. -/
def Record.hasKey (rec : Record) (k : String) : Bool :=
  List.any rec (fun p => p.1 = k)

/-- The `Reader` struct of `src/reading.rs:19`: the byte source, the parsed
header, the field-descriptor table and the cursor of records produced. -/
structure Reader where
  source : List Nat
  header : Header
  fields_info : List RecordFieldInfo
  current_record : Nat
deriving DecidableEq, Repr

/-- The outcome of `Reader::new`: `Ok`, a returned `Err`, or the
`panic!` at `src/reading.rs:52` (a process-level abort, not a value). -/
inductive NewResult where
  | ok (r : Reader)
  | err (e : Error)
  | panicked (msg : String)
deriving DecidableEq

/-- The descriptor-reading loop of `Reader::new` (`src/reading.rs:44-48`):
reads `n` descriptors one at a time, propagating the first failure. -/
def readNDescriptors : Nat → List Nat → Except Error (List RecordFieldInfo × List Nat)
  | 0, src => .ok ([], src)
  | n + 1, src =>
    match RecordFieldInfo.read_from src with
    | .error e => .error e
    | .ok (info, src') =>
      match readNDescriptors n src' with
      | .error e => .error e
      | .ok (infos, src'') => .ok (info :: infos, src'')

/-- `Reader::new` (`src/reading.rs:38-61`): reads the header, computes
`num_fields = (offset_to_first_record - Header::SIZE) / RecordFieldInfo::SIZE`,
builds the field table with the synthetic deletion flag first, then reads one
more byte and panics unless it is the carriage-return terminator (13); a
missing byte there is an I/O error propagated by the question mark on
`read_u8`. -/
def Reader.new (source : List Nat) : NewResult :=
  match Header.read_from source with
  | .error e => .err e
  | .ok (header, s1) =>
    let num_fields :=
      (header.offset_to_first_record - Header.SIZE) / RecordFieldInfo.SIZE
    match readNDescriptors num_fields s1 with
    | .error e => .err e
    | .ok (infos, s2) =>
      match s2 with
      | [] => .err .IoError
      | terminator :: s3 =>
        if terminator ≠ 13 then
          .panicked "unexpected terminator"
        else
          .ok { source := s3, header := header,
                fields_info := RecordFieldInfo.new_deletion_flag :: infos,
                current_record := 0 }

/-- The field loop of `Iterator::next` (`src/reading.rs:94-103`): decode one
value per descriptor in table order from the shared source, returning the
first failure; a decoded value is inserted into the record unless the
descriptor's name is "DeletionFlag". -/
def readFields : List RecordFieldInfo → List Nat → Record →
    Except Error Record × List Nat
  | [], src, rec => (.ok rec, src)
  | info :: rest, src, rec =>
    match FieldValue.read_from src info with
    | (.error e, src') => (.error e, src')
    | (.ok value, src') =>
      readFields rest src'
        (if info.name ≠ "DeletionFlag" then rec.insert info.name value else rec)

/-- `Iterator::next` (`src/reading.rs:89-107`): `None` once
`current_record >= num_records`; otherwise decode one record through the
field table, yielding the first failure as the item (the cursor is not
advanced on that path) or the completed record with the cursor advanced. -/
def Reader.next (r : Reader) : Option (Except Error Record) × Reader :=
  if r.current_record ≥ r.header.num_records then
    (none, r)
  else
    match readFields r.fields_info r.source [] with
    | (.error e, src') => (some (.error e), { r with source := src' })
    | (.ok rec, src') =>
      (some (.ok rec),
        { r with source := src', current_record := r.current_record + 1 })

/-- `Reader::read` (`src/reading.rs:75-82`): pull every item from the
iterator into an ordered collection, stopping at the first failure and
propagating it. -/
def Reader.read (r : Reader) : Except Error (List Record) :=
  match h : r.next with
  | (none, _) => .ok []
  | (some (.error e), _) => .error e
  | (some (.ok rec), r') =>
    match r'.read with
    | .error e => .error e
    | .ok rest => .ok (rec :: rest)
termination_by r.header.num_records - r.current_record
decreasing_by
  unfold Reader.next at h
  split at h
  · exact absurd (congrArg Prod.fst h) (by simp)
  · rename_i hlt
    split at h
    · exact absurd (congrArg Prod.fst h) (by simp)
    · cases h
      simp only
      omega

/-- The outcome of the one-call entry point: records, a returned error, or
the propagated panic from construction. -/
inductive ReadResult where
  | ok (records : List Record)
  | err (e : Error)
  | panicked (msg : String)
deriving DecidableEq

/-- The free function `read` (`src/reading.rs:118-122`) with the file-system
entry point abstracted away (§6): the opened file's bytes are the source;
construct the `Reader`, then eagerly read. -/
def read (bytes : List Nat) : ReadResult :=
  match Reader.new bytes with
  | .err e => .err e
  | .panicked msg => .panicked msg
  | .ok r =>
    match r.read with
    | .error e => .err e
    | .ok records => .ok records

/-- Spec-side description for the refinement in §4.3/§8: decode exactly `n`
records one after the other from the source, strictly in on-disk order,
propagating the first failure.  Stated from the spec's words, to be compared
with `Reader.read` (which goes through the iterator). -/
def specDecodeRecords (fields : List RecordFieldInfo) :
    Nat → List Nat → Except Error (List Record)
  | 0, _ => .ok []
  | n + 1, src =>
    match readFields fields src [] with
    | (.error e, _) => .error e
    | (.ok rec, src') =>
      match specDecodeRecords fields n src' with
      | .error e => .error e
      | .ok rest => .ok (rec :: rest)

/-- A concrete 32-byte dBASE header: version byte, a little-endian record
count at byte 4 and a little-endian offset-to-first-record at byte 8. -/
def headerBytes (nrec offset : Nat) : List Nat :=
  [3, 0, 0, 0,
   nrec % 256, nrec / 256 % 256, nrec / 65536 % 256, nrec / 16777216 % 256,
   offset % 256, offset / 256 % 256] ++ List.replicate 22 0

/-- A concrete 32-byte descriptor: character field "NAME" of width 10. -/
def nameDescBytes : List Nat :=
  [78, 65, 77, 69, 0, 0, 0, 0, 0, 0, 0, 67, 0, 0, 0, 0, 10] ++
    List.replicate 15 0

/-- A concrete well-formed file: 1 declared record, one field "NAME" of
width 10; offset to first record 65 = 32 + 32 + 1; the record is one
deletion-flag byte followed by ten data bytes. -/
def oneRecordFile : List Nat :=
  headerBytes 1 65 ++ nameDescBytes ++ [13] ++
    (32 :: [65, 66, 67, 68, 69, 70, 71, 72, 73, 74])

/-- A concrete well-formed file whose declared record count is 0. -/
def zeroRecordFile : List Nat :=
  headerBytes 0 65 ++ nameDescBytes ++ [13]

/-- A concrete file identical to `oneRecordFile` except that the byte after
the field-descriptor table is 0, not the expected terminator 13. -/
def badTerminatorFile : List Nat :=
  headerBytes 1 65 ++ nameDescBytes ++ [0] ++
    (32 :: [65, 66, 67, 68, 69, 70, 71, 72, 73, 74])

/-- The descriptor that `nameDescBytes` decodes to. -/
def nameDescInfo : RecordFieldInfo :=
  { name := "NAME", field_type := .Character, record_length := 10 }

/-- The record bytes of `oneRecordFile`: a deletion-flag byte and ten data
bytes. -/
def recordBytes10 : List Nat :=
  32 :: [65, 66, 67, 68, 69, 70, 71, 72, 73, 74]

/-- The reader `Reader.new` constructs from `oneRecordFile`. -/
def readerOne : Reader :=
  { source := recordBytes10,
    header := { num_records := 1, offset_to_first_record := 65 },
    fields_info := [RecordFieldInfo.new_deletion_flag, nameDescInfo],
    current_record := 0 }

/-- A reader with no records at all, already exhausted at construction. -/
def emptyReader : Reader :=
  { source := [],
    header := { num_records := 0, offset_to_first_record := 32 },
    fields_info := [],
    current_record := 0 }

/-- A reader whose source is too short for its one declared record, so the
first field decode fails with an I/O error. -/
def errReader : Reader :=
  { source := [],
    header := { num_records := 1, offset_to_first_record := 65 },
    fields_info := [RecordFieldInfo.new_deletion_flag],
    current_record := 0 }

/-- A genuine on-disk-style column that carries the reserved name
"DeletionFlag", for exercising the name-based exclusion. -/
def fakeDeletionInfo : RecordFieldInfo :=
  { name := "DeletionFlag", field_type := .Character, record_length := 3 }

/-- A field table holding a real column named "DeletionFlag" in the middle,
between two ordinary columns. -/
def trickyFields : List RecordFieldInfo :=
  [{ name := "A", field_type := .Character, record_length := 2 },
   fakeDeletionInfo,
   { name := "B", field_type := .Numeric, record_length := 1 }]

/-- The state of `readerOne` after its single record has been yielded. -/
def readerOne1 : Reader :=
  { source := [],
    header := { num_records := 1, offset_to_first_record := 65 },
    fields_info := [RecordFieldInfo.new_deletion_flag, nameDescInfo],
    current_record := 1 }

/-- The reader `Reader.new` constructs from `zeroRecordFile`. -/
def readerZero : Reader :=
  { source := [],
    header := { num_records := 0, offset_to_first_record := 65 },
    fields_info := [RecordFieldInfo.new_deletion_flag, nameDescInfo],
    current_record := 0 }

/-- A reader over `trickyFields` with enough source bytes for one record. -/
def trickyReader : Reader :=
  { source := [49, 50, 51, 52, 53, 54],
    header := { num_records := 1, offset_to_first_record := 128 },
    fields_info := trickyFields,
    current_record := 0 }

/-- The state of `trickyReader` after its record has been yielded. -/
def trickyReader1 : Reader :=
  { source := [],
    header := { num_records := 1, offset_to_first_record := 128 },
    fields_info := trickyFields,
    current_record := 1 }

/-- Equality of `Except` values is decidable when it is on both sides. -/
instance exceptDecidableEq {ε α : Type} [DecidableEq ε] [DecidableEq α] :
    DecidableEq (Except ε α) := fun a b =>
  match a, b with
  | .error e1, .error e2 =>
    if h : e1 = e2 then isTrue (by rw [h])
    else isFalse (by intro hc; cases hc; exact h rfl)
  | .error _, .ok _ => isFalse (by intro hc; cases hc)
  | .ok _, .error _ => isFalse (by intro hc; cases hc)
  | .ok v1, .ok v2 =>
    if h : v1 = v2 then isTrue (by rw [h])
    else isFalse (by intro hc; cases hc; exact h rfl)

/-! ### Helper lemmas -/

theorem next_unfold_active (r : Reader)
    (h : r.current_record < r.header.num_records) :
    r.next = match readFields r.fields_info r.source [] with
      | (.error e, src') => (some (.error e), { r with source := src' })
      | (.ok rec, src') =>
        (some (.ok rec),
          { r with source := src', current_record := r.current_record + 1 }) := by
  unfold Reader.next
  rw [if_neg (Nat.not_le.mpr h)]

theorem next_of_readFields_err (r : Reader)
    (h : r.current_record < r.header.num_records) (e : Error) (src' : List Nat)
    (hrf : readFields r.fields_info r.source [] = (.error e, src')) :
    r.next = (some (.error e), { r with source := src' }) := by
  rw [next_unfold_active r h, hrf]

theorem next_of_readFields_ok (r : Reader)
    (h : r.current_record < r.header.num_records) (rec : Record)
    (src' : List Nat)
    (hrf : readFields r.fields_info r.source [] = (.ok rec, src')) :
    r.next = (some (.ok rec),
      { r with source := src', current_record := r.current_record + 1 }) := by
  rw [next_unfold_active r h, hrf]

theorem read_of_next_none (r : Reader) (h : (r.next).1 = none) :
    r.read = .ok [] := by
  rw [Reader.read]
  split
  · rfl
  · rename_i heq
    rw [heq] at h
    simp at h
  · rename_i heq
    rw [heq] at h
    simp at h

theorem read_of_next_err (r r' : Reader) (e : Error)
    (h : r.next = (some (.error e), r')) : r.read = .error e := by
  rw [Reader.read]
  split
  · rename_i heq
    rw [heq] at h
    simp at h
  · rename_i e2 snd heq
    rw [heq] at h
    cases h
    rfl
  · rename_i rec r2 heq
    rw [heq] at h
    simp at h

theorem read_of_next_ok (r r' : Reader) (rec : Record)
    (h : r.next = (some (.ok rec), r')) :
    r.read = match r'.read with
      | .error e => .error e
      | .ok rest => .ok (rec :: rest) := by
  rw [Reader.read]
  split
  · rename_i heq
    rw [heq] at h
    simp at h
  · rename_i e2 snd heq
    rw [heq] at h
    simp at h
  · rename_i rec2 r2 heq
    rw [heq] at h
    injection h with h1 h2
    injection h1 with h1
    injection h1 with h1
    subst h1
    subst h2
    rfl

theorem next_err_spec (r r' : Reader) (e : Error)
    (h : r.next = (some (.error e), r')) :
    r'.current_record = r.current_record ∧ r'.header = r.header ∧
      r'.fields_info = r.fields_info ∧
      r.current_record < r.header.num_records := by
  unfold Reader.next at h
  split at h
  · exact absurd (congrArg Prod.fst h) (by simp)
  · rename_i hlt
    split at h
    · cases h
      exact ⟨rfl, rfl, rfl, Nat.lt_of_not_le hlt⟩
    · exact absurd (congrArg Prod.fst h) (by simp)

theorem new_ok_spec (src : List Nat) (r : Reader)
    (hok : Reader.new src = .ok r) :
    ∃ s1 infos s2,
      Header.read_from src = .ok (r.header, s1) ∧
      readNDescriptors
          ((r.header.offset_to_first_record - Header.SIZE) /
            RecordFieldInfo.SIZE) s1 = .ok (infos, s2) ∧
      s2 = 13 :: r.source ∧
      r.fields_info = RecordFieldInfo.new_deletion_flag :: infos ∧
      r.current_record = 0 := by
  unfold Reader.new at hok
  split at hok
  · cases hok
  · rename_i header s1 heq1
    simp only [] at hok
    split at hok
    · cases hok
    · rename_i infos s2 heq2
      split at hok
      · cases hok
      · rename_i terminator s3
        split at hok
        · cases hok
        · rename_i hterm
          cases hok
          have ht : terminator = 13 := by simpa using hterm
          exact ⟨s1, infos, terminator :: s3,
            by simpa using heq1, by simpa using heq2, by rw [ht], rfl, rfl⟩

theorem readNDescriptors_length :
    ∀ (n : Nat) (src : List Nat) (infos : List RecordFieldInfo)
      (src' : List Nat),
      readNDescriptors n src = .ok (infos, src') → infos.length = n := by
  intro n
  induction n with
  | zero =>
    intro src infos src' h
    unfold readNDescriptors at h
    cases h
    rfl
  | succ n ih =>
    intro src infos src' h
    unfold readNDescriptors at h
    split at h
    · cases h
    · rename_i info srcA heq1
      split at h
      · cases h
      · rename_i infos2 srcB heq2
        cases h
        simp [ih _ _ _ heq2]

theorem fieldValue_read_from_ok (src : List Nat) (info : RecordFieldInfo)
    (v : FieldValue) (src' : List Nat)
    (h : FieldValue.read_from src info = (.ok v, src')) :
    src' = src.drop info.record_length := by
  unfold FieldValue.read_from at h
  split at h
  · exact absurd (congrArg Prod.fst h) (by simp)
  · exact (congrArg Prod.snd h).symm

theorem record_insert_hasKey (rec : Record) (k : String) (v : FieldValue)
    (k' : String) :
    (rec.insert k v).hasKey k' = ((k == k') || rec.hasKey k') := by
  rw [Bool.eq_iff_iff]
  simp only [Record.insert, Record.hasKey, List.any_eq_true, Bool.or_eq_true,
    beq_iff_eq, List.mem_append, List.mem_filter, List.mem_singleton,
    decide_eq_true_eq, ne_eq]
  constructor
  · rintro ⟨p, hp, hpk⟩
    rcases hp with ⟨hmem, hne⟩ | rfl
    · exact Or.inr ⟨p, hmem, hpk⟩
    · exact Or.inl hpk
  · rintro (rfl | ⟨p, hmem, hpk⟩)
    · exact ⟨(k, v), Or.inr rfl, rfl⟩
    · by_cases hpk2 : p.1 = k
      · exact ⟨(k, v), Or.inr rfl, by rw [← hpk2, hpk]⟩
      · exact ⟨p, Or.inl ⟨hmem, hpk2⟩, hpk⟩

theorem readFields_ok_spec :
    ∀ (fields : List RecordFieldInfo) (src : List Nat) (rec0 rec : Record)
      (src' : List Nat),
      readFields fields src rec0 = (.ok rec, src') →
      src' = src.drop ((fields.map RecordFieldInfo.record_length).sum) ∧
        ∀ k : String,
          rec.hasKey k =
            (rec0.hasKey k ||
              fields.any (fun i => (i.name == k) && !(i.name == "DeletionFlag"))) := by
  intro fields
  induction fields with
  | nil =>
    intro src rec0 rec src' h
    unfold readFields at h
    cases h
    simp
  | cons info rest ih =>
    intro src rec0 rec src' h
    unfold readFields at h
    split at h
    · exact absurd (congrArg Prod.fst h) (by simp)
    · rename_i value srcA heq
      have hdrop := fieldValue_read_from_ok src info value srcA heq
      obtain ⟨hsrc, hkeys⟩ := ih srcA _ rec src' h
      constructor
      · rw [hsrc, hdrop, List.drop_drop]
        simp [Nat.add_comm]
      · intro k
        rw [hkeys k, List.any_cons]
        by_cases hdel : info.name = "DeletionFlag"
        · rw [if_neg (by simp [hdel])]
          have hf : ((info.name == k) && !(info.name == "DeletionFlag")) = false := by
            simp [hdel]
          simp only [hf, Bool.false_or]
        · rw [if_pos hdel, record_insert_hasKey]
          have hf : ((info.name == k) && !(info.name == "DeletionFlag")) =
              (info.name == k) := by
            simp [hdel]
          simp only [hf]
          cases h1 : (info.name == k) <;> cases h2 : Record.hasKey rec0 k <;> simp

theorem specDecodeRecords_length (fields : List RecordFieldInfo) :
    ∀ (n : Nat) (src : List Nat) (recs : List Record),
      specDecodeRecords fields n src = .ok recs → recs.length = n := by
  intro n
  induction n with
  | zero =>
    intro src recs h
    unfold specDecodeRecords at h
    cases h
    rfl
  | succ n ih =>
    intro src recs h
    unfold specDecodeRecords at h
    split at h
    · cases h
    · rename_i rec srcA heq1
      split at h
      · cases h
      · rename_i rest heq2
        cases h
        simp [ih _ _ heq2]

theorem read_eq_specDecodeRecords (r : Reader) :
    r.read =
      specDecodeRecords r.fields_info
        (r.header.num_records - r.current_record) r.source := by
  suffices h : ∀ (n : Nat) (r : Reader),
      r.header.num_records - r.current_record = n →
      r.read = specDecodeRecords r.fields_info n r.source from h _ r rfl
  intro n
  induction n with
  | zero =>
    intro r hn
    have hx : r.header.num_records ≤ r.current_record := by omega
    have hnone : (r.next).1 = none := by
      unfold Reader.next
      rw [if_pos hx]
    rw [read_of_next_none r hnone]
    rfl
  | succ n ih =>
    intro r hn
    have hlt : r.current_record < r.header.num_records := by omega
    cases hrf : readFields r.fields_info r.source [] with
    | mk res src' =>
      cases res with
      | error e =>
        have hnext := next_of_readFields_err r hlt e src' hrf
        rw [read_of_next_err r _ e hnext]
        unfold specDecodeRecords
        rw [hrf]
      | ok rec =>
        have hnext := next_of_readFields_ok r hlt rec src' hrf
        rw [read_of_next_ok r _ rec hnext]
        have hmeas :
            ({ r with source := src', current_record := r.current_record + 1 } : Reader).header.num_records -
              ({ r with source := src', current_record := r.current_record + 1 } : Reader).current_record = n := by
          simp only []
          omega
        rw [ih _ hmeas]
        conv_rhs => unfold specDecodeRecords
        rw [hrf]

/-! ### Claim theorems -/

/-- C6: every header that `Header.read_from` successfully produces has
`offset_to_first_record` at least the fixed header size, so the subtraction
`offset_to_first_record - Header.SIZE` in `Reader.new`'s field-count
computation is a true (non-underflowing) subtraction. -/
theorem c6_offset_lower_bound (src : List Nat) (h : Header) (rest : List Nat)
    (hok : Header.read_from src = .ok (h, rest)) :
    Header.SIZE ≤ h.offset_to_first_record := by
  unfold Header.read_from at hok
  split at hok
  · cases hok
  · simp only [] at hok
    split at hok
    · cases hok
    · rename_i hoff
      cases hok
      exact Nat.le_of_not_lt hoff

/-- Witness for C6 at a concrete 32-byte header with offset 65. -/
theorem c6_witness :
    Header.SIZE ≤
      ({ num_records := 1, offset_to_first_record := 65 } : Header).offset_to_first_record :=
  c6_offset_lower_bound (headerBytes 1 65) _ [] (by decide)

/-- C7: once the cursor equals the header's declared total, `next` yields
end-of-sequence and leaves the reader unchanged, so every further call
yields end-of-sequence as well, never an error. -/
theorem c7_exhausted_idempotent (r : Reader)
    (h : r.current_record = r.header.num_records) :
    r.next = (none, r) ∧ ((r.next).2).next = (none, r) := by
  have h1 : r.next = (none, r) := by
    unfold Reader.next
    rw [if_pos (Nat.le_of_eq h.symm)]
  refine ⟨h1, ?_⟩
  rw [h1]
  exact h1

/-- Witness for C7 at a concrete exhausted reader. -/
theorem c7_witness :
    emptyReader.next = (none, emptyReader) ∧
      ((emptyReader.next).2).next = (none, emptyReader) :=
  c7_exhausted_idempotent emptyReader rfl

/-- C8: decoding is deterministic: running the pipeline over two independent
byte sources holding the same bytes yields the same outcome, and in
particular field-for-field identical records. -/
theorem c8_deterministic (b1 b2 : List Nat) (h : b1 = b2) :
    read b1 = read b2 ∧
      ∀ (recs1 recs2 : List Record),
        read b1 = .ok recs1 → read b2 = .ok recs2 → recs1 = recs2 := by
  subst h
  refine ⟨rfl, ?_⟩
  intro recs1 recs2 h1 h2
  rw [h1] at h2
  simpa using h2

/-- Witness for C8 at two copies of the concrete one-record file. -/
theorem c8_witness : read oneRecordFile = read oneRecordFile :=
  (c8_deterministic oneRecordFile oneRecordFile rfl).1

/-- C9: when a field-value decode fails during `next`, the failure is the
yielded item and `current_record` is unchanged; the reader keeps the same
header and field table and is still not exhausted, so the following call
attempts the same record index again. -/
theorem c9_error_keeps_cursor (r r' : Reader) (e : Error)
    (h : r.next = (some (.error e), r')) :
    r'.current_record = r.current_record ∧ r'.header = r.header ∧
      r'.fields_info = r.fields_info ∧
      r'.current_record < r'.header.num_records := by
  obtain ⟨h1, h2, h3, h4⟩ := next_err_spec r r' e h
  exact ⟨h1, h2, h3, by rw [h1, h2]; exact h4⟩

/-- Witness for C9 at a concrete reader whose source is too short. -/
theorem c9_witness :
    errReader.current_record = errReader.current_record ∧
      errReader.header = errReader.header ∧
      errReader.fields_info = errReader.fields_info ∧
      errReader.current_record < errReader.header.num_records :=
  c9_error_keeps_cursor errReader errReader .IoError (by decide)

/-- C5: the eager `Reader.read` pulls items one by one: end-of-sequence
gives the empty collection, a failure item is returned as the overall
failure with the records collected so far discarded, and a success item is
prepended to the rest of the eager read. -/
theorem c5_read_eager (r : Reader) :
    ((r.next).1 = none → r.read = .ok []) ∧
      (∀ (e : Error) (r' : Reader),
        r.next = (some (.error e), r') → r.read = .error e) ∧
      (∀ (rec : Record) (r' : Reader) (rest : List Record),
        r.next = (some (.ok rec), r') → r'.read = .ok rest →
          r.read = .ok (rec :: rest)) ∧
      (∀ (rec : Record) (r' : Reader) (e : Error),
        r.next = (some (.ok rec), r') → r'.read = .error e →
          r.read = .error e) := by
  refine ⟨read_of_next_none r, fun e r' h => read_of_next_err r r' e h, ?_, ?_⟩
  · intro rec r' rest h hrest
    rw [read_of_next_ok r r' rec h, hrest]
  · intro rec r' e h herr
    rw [read_of_next_ok r r' rec h, herr]

/-- Witness for C5: at a concrete reader whose first iteration step fails,
the eager read returns that first failure and no records. -/
theorem c5_witness : errReader.read = .error .IoError :=
  (c5_read_eager errReader).2.1 .IoError errReader (by decide)

/-- C2 counterexample: on a concrete file whose terminator byte is 0,
`Reader::new` aborts via `panic!` instead of returning the recoverable
`UnexpectedTerminator` error value the claim describes. -/
theorem c2_counterexample :
    Reader.new badTerminatorFile = .panicked "unexpected terminator" ∧
      Reader.new badTerminatorFile ≠ .err .UnexpectedTerminator := by
  constructor
  · decide
  · decide

/-- C2 (amended): whenever the header and all field descriptors parse
successfully and the next byte exists but is not 13 (`0x0D`), `Reader.new`
deterministically aborts with the panic "unexpected terminator" — a
process-level abort, never `Ok` and never an error value. -/
theorem c2_bad_terminator_panics (src s1 : List Nat) (h : Header)
    (infos : List RecordFieldInfo) (t : Nat) (rest : List Nat)
    (h1 : Header.read_from src = .ok (h, s1))
    (h2 : readNDescriptors
        ((h.offset_to_first_record - Header.SIZE) / RecordFieldInfo.SIZE) s1 =
      .ok (infos, t :: rest))
    (h3 : t ≠ 13) :
    Reader.new src = .panicked "unexpected terminator" := by
  unfold Reader.new
  rw [h1]
  dsimp only
  rw [h2]
  dsimp only
  rw [if_pos h3]

/-- Witness for C2's amended statement at the concrete bad-terminator
file. -/
theorem c2_witness :
    Reader.new badTerminatorFile = .panicked "unexpected terminator" :=
  c2_bad_terminator_panics badTerminatorFile
    (nameDescBytes ++ 0 :: recordBytes10)
    { num_records := 1, offset_to_first_record := 65 } [nameDescInfo] 0
    recordBytes10 (by decide) (by decide) (by decide)

/-- C3: a successfully constructed reader's field table has exactly
`num_fields + 1` entries where
`num_fields = (offset_to_first_record - Header.SIZE) / RecordFieldInfo.SIZE`
by integer division; the first entry is the synthetic deletion-flag
descriptor and the rest are the on-disk descriptors in the order read. -/
theorem c3_field_table (src : List Nat) (r : Reader)
    (hok : Reader.new src = .ok r) :
    r.fields_info.length =
        (r.header.offset_to_first_record - Header.SIZE) /
          RecordFieldInfo.SIZE + 1 ∧
      r.fields_info.head? = some RecordFieldInfo.new_deletion_flag ∧
      ∃ s1 infos s2,
        Header.read_from src = .ok (r.header, s1) ∧
        readNDescriptors
            ((r.header.offset_to_first_record - Header.SIZE) /
              RecordFieldInfo.SIZE) s1 = .ok (infos, s2) ∧
        r.fields_info = RecordFieldInfo.new_deletion_flag :: infos := by
  obtain ⟨s1, infos, s2, h1, h2, h3, h4, hcur⟩ := new_ok_spec src r hok
  refine ⟨?_, ?_, s1, infos, s2, h1, h2, h4⟩
  · rw [h4]
    simp [readNDescriptors_length _ _ _ _ h2]
  · rw [h4]
    rfl

/-- Witness for C3 at the concrete one-record file. -/
theorem c3_witness :
    readerOne.fields_info.length =
        (readerOne.header.offset_to_first_record - Header.SIZE) /
          RecordFieldInfo.SIZE + 1 ∧
      readerOne.fields_info.head? = some RecordFieldInfo.new_deletion_flag ∧
      ∃ s1 infos s2,
        Header.read_from oneRecordFile = .ok (readerOne.header, s1) ∧
        readNDescriptors
            ((readerOne.header.offset_to_first_record - Header.SIZE) /
              RecordFieldInfo.SIZE) s1 = .ok (infos, s2) ∧
        readerOne.fields_info = RecordFieldInfo.new_deletion_flag :: infos :=
  c3_field_table oneRecordFile readerOne (by decide)

/-- C10: the deletion flag is excluded by comparing the descriptor name with
the string "DeletionFlag", not by table position: in a successful iteration
step the source is advanced past the bytes of every descriptor (the
deletion-named ones included), no key "DeletionFlag" is ever in the yielded
record, and every descriptor with any other name does get its key
inserted. -/
theorem c10_exclusion_by_name (r r' : Reader) (rec : Record)
    (h : r.next = (some (.ok rec), r')) :
    r'.source =
        r.source.drop ((r.fields_info.map RecordFieldInfo.record_length).sum) ∧
      rec.hasKey "DeletionFlag" = false ∧
      ∀ info ∈ r.fields_info, info.name ≠ "DeletionFlag" →
        rec.hasKey info.name = true := by
  unfold Reader.next at h
  split at h
  · exact absurd (congrArg Prod.fst h) (by simp)
  · split at h
    · exact absurd (congrArg Prod.fst h) (by simp)
    · rename_i rec2 src' heq
      injection h with hfst hsnd
      injection hfst with hfst
      injection hfst with hfst
      rw [hfst] at heq
      subst hsnd
      obtain ⟨hsrc, hkeys⟩ :=
        readFields_ok_spec r.fields_info r.source [] rec src' heq
      refine ⟨hsrc, ?_, ?_⟩
      · rw [hkeys "DeletionFlag"]
        simp [Record.hasKey]
      · intro info hmem hname
        rw [hkeys info.name]
        have hany : r.fields_info.any
            (fun i => (i.name == info.name) && !(i.name == "DeletionFlag")) =
              true := by
          rw [List.any_eq_true]
          exact ⟨info, hmem, by simp [hname]⟩
        rw [hany]
        simp [Record.hasKey]

/-- Witness for C10 at a field table carrying a real mid-table column named
"DeletionFlag": its 3 bytes are consumed, its value is not in the record,
and the ordinary columns "A" and "B" are. -/
theorem c10_witness :
    trickyReader1.source =
        trickyReader.source.drop
          ((trickyReader.fields_info.map RecordFieldInfo.record_length).sum) ∧
      Record.hasKey
          [("A", FieldValue.Character [49, 50]), ("B", FieldValue.Numeric [54])]
          "DeletionFlag" = false ∧
      ∀ info ∈ trickyReader.fields_info, info.name ≠ "DeletionFlag" →
        Record.hasKey
            [("A", FieldValue.Character [49, 50]),
              ("B", FieldValue.Numeric [54])] info.name = true :=
  c10_exclusion_by_name trickyReader trickyReader1
    [("A", FieldValue.Character [49, 50]), ("B", FieldValue.Numeric [54])]
    (by decide)

/-- C4: no record yielded by the iterator ever contains the key
"DeletionFlag"; concretely, the file declaring 1 record with one character
field "NAME" of width 10 decodes to exactly one record whose only key is
"NAME". -/
theorem c4_no_deletion_flag_key :
    (∀ (r r' : Reader) (rec : Record),
      r.next = (some (.ok rec), r') → rec.hasKey "DeletionFlag" = false) ∧
      read oneRecordFile =
        .ok [[("NAME",
          FieldValue.Character [65, 66, 67, 68, 69, 70, 71, 72, 73, 74])]] := by
  constructor
  · intro r r' rec h
    unfold Reader.next at h
    split at h
    · exact absurd (congrArg Prod.fst h) (by simp)
    · split at h
      · exact absurd (congrArg Prod.fst h) (by simp)
      · rename_i rec2 src' heq
        injection h with hfst hsnd
        injection hfst with hfst
        injection hfst with hfst
        rw [hfst] at heq
        obtain ⟨-, hkeys⟩ :=
          readFields_ok_spec r.fields_info r.source [] rec src' heq
        rw [hkeys "DeletionFlag"]
        simp [Record.hasKey]
  · have hnew : Reader.new oneRecordFile = .ok readerOne := by decide
    have h1 : readerOne.next =
        (some (.ok [("NAME",
          FieldValue.Character [65, 66, 67, 68, 69, 70, 71, 72, 73, 74])]),
          readerOne1) := by decide
    have h2 : readerOne1.read = .ok [] := read_of_next_none readerOne1 (by decide)
    have h3 : readerOne.read =
        .ok [[("NAME",
          FieldValue.Character [65, 66, 67, 68, 69, 70, 71, 72, 73, 74])]] := by
      rw [read_of_next_ok _ _ _ h1, h2]
    unfold read
    rw [hnew]
    dsimp only
    rw [h3]

/-- Witness for C4's iterator part at the concrete one-record reader. -/
theorem c4_witness :
    Record.hasKey
        [("NAME", FieldValue.Character [65, 66, 67, 68, 69, 70, 71, 72, 73, 74])]
        "DeletionFlag" = false :=
  c4_no_deletion_flag_key.1 readerOne readerOne1
    [("NAME", FieldValue.Character [65, 66, 67, 68, 69, 70, 71, 72, 73, 74])]
    (by decide)

/-- C1: iteration is the sequential in-order decode of exactly the header's
declared record count: the eager read of any reader equals the spec-side
`specDecodeRecords` over the remaining count (hence strictly on-disk order,
no reordering, skipping or duplication), a successful sequential decode of
`n` records yields exactly `n` of them, a freshly constructed reader that
reads without failure yields exactly `num_records` records, and when the
declared count is 0 iteration yields no items and the eager read returns
the empty collection (also at the concrete zero-record file). -/
theorem c1_records_one_to_one :
    (∀ r : Reader,
      r.read = specDecodeRecords r.fields_info
        (r.header.num_records - r.current_record) r.source) ∧
      (∀ (fields : List RecordFieldInfo) (n : Nat) (src : List Nat)
          (recs : List Record),
        specDecodeRecords fields n src = .ok recs → recs.length = n) ∧
      (∀ (src : List Nat) (r : Reader) (recs : List Record),
        Reader.new src = .ok r → r.read = .ok recs →
          recs.length = r.header.num_records) ∧
      (∀ (src : List Nat) (r : Reader),
        Reader.new src = .ok r → r.header.num_records = 0 →
          (r.next).1 = none ∧ r.read = .ok []) ∧
      read zeroRecordFile = .ok [] := by
  refine ⟨read_eq_specDecodeRecords, specDecodeRecords_length, ?_, ?_, ?_⟩
  · intro src r recs hnew hread
    obtain ⟨s1, infos, s2, h1, h2, h3, h4, hcur⟩ := new_ok_spec src r hnew
    rw [read_eq_specDecodeRecords r] at hread
    have hlen := specDecodeRecords_length r.fields_info _ _ _ hread
    omega
  · intro src r hnew h0
    obtain ⟨s1, infos, s2, h1, h2, h3, h4, hcur⟩ := new_ok_spec src r hnew
    have hx : r.header.num_records ≤ r.current_record := by omega
    have hnone : (r.next).1 = none := by
      unfold Reader.next
      rw [if_pos hx]
    exact ⟨hnone, read_of_next_none r hnone⟩
  · have hnew : Reader.new zeroRecordFile = .ok readerZero := by decide
    have h2 : readerZero.read = .ok [] := read_of_next_none readerZero (by decide)
    unfold read
    rw [hnew]
    dsimp only
    rw [h2]

/-- Witness for C1 at the concrete one-record file: the eager read of the
constructed reader yields exactly `num_records = 1` record. -/
theorem c1_witness :
    ([[("NAME", FieldValue.Character [65, 66, 67, 68, 69, 70, 71, 72, 73, 74])]] :
        List Record).length = readerOne.header.num_records :=
  c1_records_one_to_one.2.2.1 oneRecordFile readerOne
    [[("NAME", FieldValue.Character [65, 66, 67, 68, 69, 70, 71, 72, 73, 74])]]
    (by decide)
    (by
      rw [read_of_next_ok readerOne readerOne1
          [("NAME", FieldValue.Character [65, 66, 67, 68, 69, 70, 71, 72, 73, 74])]
          (by decide),
        read_of_next_none readerOne1 (by decide)])

end Dbase
